import Mathlib

/-!
Shallow embedding of the WebRTC peer-connection/signaling core of the
repository (`src/lib/webrtc.ts`, class `WebRTCManager`).

The manager owns a `Map<string, PeerConnection>` (the Peer Session Table),
a local media stream, and a signalling channel.  Inbound broadcast events
(`user-joined`, `user-left`, `offer`, `answer`, connection-state callbacks,
grace timers) and the public methods (`joinMeeting`, `leaveMeeting`,
`toggleAudio`, `initializeMedia`, `startScreenShare`, `stopScreenShare`)
are modelled as pure state transformers that also return the list of
observable effects they emit: signalling sends and UI callbacks.

The browser pieces are modelled explicitly:
* `RTCPeerConnection` objects become `Transport` records held in a store
  keyed by an allocation id, so that replacing a record with a fresh
  connection (as the source does on a duplicate join or inbound offer)
  is visible, and so that the `setTimeout` closure of the disconnect
  handler - which captures the *transport object*, not the map entry -
  checks the state of the very transport it was armed for.
* `navigator.mediaDevices.getUserMedia` becomes an environment oracle
  `MediaEnv` from the requested constraint profile to a result, letting
  the primary/fallback retry logic of `initializeMedia` be stated exactly.
* `setTimeout(cb, 5000)` in the `disconnected` branch becomes an armed
  `GraceTimer`; the timer firing is an input event delivered later.
-/

namespace WebRTC

/-- Insertion-ordered association list standing for a JS `Map`.
`mapSet` replaces an existing entry in place (as `Map.set` does),
otherwise appends. -/
def mapSet {κ β : Type} [DecidableEq κ] :
    List (κ × β) → κ → β → List (κ × β)
  | [], k, v => [(k, v)]
  | (k0, v0) :: rest, k, v =>
    if k0 = k then (k, v) :: rest else (k0, v0) :: mapSet rest k v

/-- `Map.get`: the first entry with the given key, if any. -/
def mapGet {κ β : Type} [DecidableEq κ] :
    List (κ × β) → κ → Option β
  | [], _ => none
  | (k0, v0) :: rest, k => if k0 = k then some v0 else mapGet rest k

/-- `Map.delete`: drop the entry with the given key. -/
def mapDelete {κ β : Type} [DecidableEq κ]
    (m : List (κ × β)) (k : κ) : List (κ × β) :=
  m.filter (fun kv => !(kv.1 = k : Bool))

/-- `Map.size`. -/
def mapSize {κ β : Type} (m : List (κ × β)) : Nat := m.length

/-- `RTCPeerConnection.connectionState` values used by the source. -/
inductive ConnState
  | fresh
  | connecting
  | connected
  | disconnected
  | failed
  | closed
deriving DecidableEq, Repr

inductive TrackKind
  | audio
  | video
deriving DecidableEq, Repr

/-- Provenance of a media track; stands for the track label the source
inspects (`track.label.includes('screen')` marks display capture). -/
inductive TrackSource
  | camera
  | mic
  | screen
deriving DecidableEq, Repr

structure MediaTrack where
  kind : TrackKind
  source : TrackSource
  enabled : Bool
  stopped : Bool
deriving DecidableEq, Repr

/-- A `MediaStream` is its list of tracks. -/
abbrev Stream := List MediaTrack

def audioTracksOf (ts : Stream) : Stream :=
  ts.filter (fun t => t.kind == TrackKind.audio)

def videoTracksOf (ts : Stream) : Stream :=
  ts.filter (fun t => t.kind == TrackKind.video)

/-- An `RTCRtpSender`; `removeTrack` nulls its track, `replaceTrack`
swaps it in place. -/
structure Sender where
  track : Option MediaTrack
deriving DecidableEq, Repr

/-- An `RTCPeerConnection` object: the peer id its callbacks captured,
its connection state, and its senders. -/
structure Transport where
  ownerPeerId : String
  connState : ConnState
  senders : List Sender
deriving DecidableEq, Repr

/-- One entry of the Peer Session Table (`PeerConnection` in the source);
the transport handle is an id into the transport store. -/
structure PeerRec where
  peerId : String
  transportId : Nat
  name : String
  audioEnabled : Bool
  videoEnabled : Bool
  isScreenSharing : Bool
deriving DecidableEq, Repr

/-- A pending `setTimeout` armed by the `disconnected` branch of
`onconnectionstatechange`; it captured the transport object (`peer`)
and the `peerId` of the closure that installed it. -/
structure GraceTimer where
  timerId : Nat
  transportId : Nat
  peerId : String
  delayMs : Nat
deriving DecidableEq, Repr

/-- The mutable fields of a `WebRTCManager` instance. -/
structure ManagerState where
  meetingId : String
  participantId : String
  participantName : String
  localStream : Option Stream
  peers : List (String × PeerRec)
  transports : List (Nat × Transport)
  timers : List GraceTimer
  isInitialized : Bool
  nextTransportId : Nat
  nextTimerId : Nat
deriving DecidableEq, Repr

/-- `new WebRTCManager(meetingId, participantId, participantName)`. -/
def mkManager (meetingId participantId participantName : String) :
    ManagerState :=
  { meetingId := meetingId
    participantId := participantId
    participantName := participantName
    localStream := none
    peers := []
    transports := []
    timers := []
    isInitialized := false
    nextTransportId := 0
    nextTimerId := 0 }

/-- Observable effects: signalling broadcasts and UI callbacks. -/
inductive Ev
  | offerMsg (src dst : String)
  | answerMsg (src dst : String)
  | userJoinedMsg (pid : String)
  | userLeftMsg (pid : String)
  | mediaStateMsg (pid : String) (audioEnabled videoEnabled screenSharing : Bool)
  | peerLeftEvt (pid : String)
  | participantCountEvt (n : Nat)
deriving DecidableEq, Repr

/-- `isAudioEnabled()`: false without a stream, else the first audio
track exists and is enabled. -/
def isAudioEnabled (s : ManagerState) : Bool :=
  match s.localStream with
  | none => false
  | some ts =>
    match audioTracksOf ts with
    | [] => false
    | t :: _ => t.enabled

/-- `isVideoEnabled()`. -/
def isVideoEnabled (s : ManagerState) : Bool :=
  match s.localStream with
  | none => false
  | some ts =>
    match videoTracksOf ts with
    | [] => false
    | t :: _ => t.enabled

/-- `isScreenSharing()`: the first video track carries a screen label. -/
def isScreenSharing (s : ManagerState) : Bool :=
  match s.localStream with
  | none => false
  | some ts =>
    match videoTracksOf ts with
    | [] => false
    | t :: _ => t.source == TrackSource.screen

/-- `getParticipantCount()`. -/
def getParticipantCount (s : ManagerState) : Nat :=
  mapSize s.peers + 1

/-- `updateParticipantCount()`: fires the participant-count callback with
`peers.size + 1`. -/
def updateParticipantCount (s : ManagerState) : List Ev :=
  [Ev.participantCountEvt (mapSize s.peers + 1)]

/-- `createPeerConnection(peerId, name, isInitiator)`: allocates a fresh
`RTCPeerConnection`, attaches the current local tracks as senders,
stores the record with `peers.set` (replacing any existing record for
that id), and when initiating creates and sends an offer. -/
def createPeerConnection (s : ManagerState)
    (peerId name : String) (isInitiator : Bool) :
    ManagerState × List Ev :=
  let tid := s.nextTransportId
  let senders : List Sender :=
    match s.localStream with
    | some ts => ts.map (fun t => ⟨some t⟩)
    | none => []
  let tr : Transport := ⟨peerId, ConnState.fresh, senders⟩
  let rec0 : PeerRec :=
    { peerId := peerId, transportId := tid, name := name
      audioEnabled := true, videoEnabled := true, isScreenSharing := false }
  let s1 :=
    { s with
      transports := mapSet s.transports tid tr
      peers := mapSet s.peers peerId rec0
      nextTransportId := tid + 1 }
  if isInitiator then
    (s1, [Ev.offerMsg s1.participantId peerId])
  else
    (s1, [])

/-- `handleUserJoined`: ignore the self-announcement, otherwise create an
initiating peer connection (no existence check in the source) and update
the participant count. -/
def handleUserJoined (s : ManagerState) (pid name : String) :
    ManagerState × List Ev :=
  if pid = s.participantId then (s, [])
  else
    let (s1, ev1) := createPeerConnection s pid name true
    (s1, ev1 ++ updateParticipantCount s1)

/-- `handleOffer`: ignore offers for other targets, otherwise create a
non-initiating peer connection (again with no existence check), set the
descriptions and send an answer. -/
def handleOffer (s : ManagerState) (src dst name : String) :
    ManagerState × List Ev :=
  if dst = s.participantId then
    let (s1, ev1) := createPeerConnection s src name false
    match mapGet s1.peers src with
    | some _ => (s1, ev1 ++ [Ev.answerMsg s1.participantId src])
    | none => (s1, ev1)
  else (s, [])

/-- `handleAnswer`: for the targeted manager, setting the remote
description on an existing record has no model-visible effect. -/
def handleAnswer (s : ManagerState) (_src dst : String) :
    ManagerState × List Ev :=
  if dst = s.participantId then (s, []) else (s, [])

/-- `handleUserLeft`: if a record exists, close its transport, delete the
record, fire the peer-left callback and update the participant count;
otherwise do nothing. -/
def handleUserLeft (s : ManagerState) (pid : String) :
    ManagerState × List Ev :=
  match mapGet s.peers pid with
  | some pr =>
    let trs :=
      match mapGet s.transports pr.transportId with
      | some tr =>
        mapSet s.transports pr.transportId { tr with connState := ConnState.closed }
      | none => s.transports
    let s1 := { s with transports := trs, peers := mapDelete s.peers pid }
    (s1, Ev.peerLeftEvt pid :: updateParticipantCount s1)
  | none => (s, [])

/-- The `onconnectionstatechange` handler of the transport `tid`, run
when the browser reports `cs`: on `disconnected` a 5000 ms grace timer is
armed (capturing the transport object and its peer id); on `closed` the
record is deleted, peer-left fires and the count is updated; `failed`
only calls `restartIce()`, which has no model-visible effect. -/
def handleConnStateChange (s : ManagerState) (tid : Nat) (cs : ConnState) :
    ManagerState × List Ev :=
  match mapGet s.transports tid with
  | none => (s, [])
  | some tr =>
    let s1 := { s with transports := mapSet s.transports tid { tr with connState := cs } }
    match cs with
    | ConnState.disconnected =>
      ({ s1 with
          timers := s1.timers ++ [⟨s1.nextTimerId, tid, tr.ownerPeerId, 5000⟩]
          nextTimerId := s1.nextTimerId + 1 }, [])
    | ConnState.closed =>
      let s2 := { s1 with peers := mapDelete s1.peers tr.ownerPeerId }
      (s2, Ev.peerLeftEvt tr.ownerPeerId :: updateParticipantCount s2)
    | _ => (s1, [])

/-- The armed grace timer fires: the captured closure re-checks
`peer.connectionState === 'disconnected'` on the captured transport and
only then removes the peer, fires peer-left and updates the count. -/
def handleGraceTimerFire (s : ManagerState) (timerId : Nat) :
    ManagerState × List Ev :=
  match s.timers.find? (fun t => t.timerId == timerId) with
  | none => (s, [])
  | some t =>
    let s1 := { s with timers := s.timers.filter (fun u => !(u.timerId == timerId)) }
    match mapGet s1.transports t.transportId with
    | some tr =>
      if tr.connState = ConnState.disconnected then
        let s2 := { s1 with peers := mapDelete s1.peers t.peerId }
        (s2, Ev.peerLeftEvt t.peerId :: updateParticipantCount s2)
      else (s1, [])
    | none => (s1, [])

/-- `joinMeeting()`: guarded by `isInitialized`; on the first call sets
the flag, updates the participant count, and (after a 1 s delay in the
source) broadcasts the user-joined announcement. -/
def joinMeeting (s : ManagerState) : ManagerState × List Ev :=
  if s.isInitialized then (s, [])
  else
    let s1 := { s with isInitialized := true }
    (s1, updateParticipantCount s1 ++ [Ev.userJoinedMsg s1.participantId])

/-- `leaveMeeting()`: broadcast `user-left`, close every transport still
referenced by a record, clear the table, and stop the local tracks.  The
source never invokes the peer-left callback here, and an explicit
`close()` does not run `onconnectionstatechange`. -/
def leaveMeeting (s : ManagerState) : ManagerState × List Ev :=
  let trs :=
    s.peers.foldl
      (fun acc kv =>
        match mapGet acc kv.2.transportId with
        | some tr => mapSet acc kv.2.transportId { tr with connState := ConnState.closed }
        | none => acc)
      s.transports
  let ls := s.localStream.map (fun ts => ts.map (fun t => { t with stopped := true }))
  ({ s with transports := trs, peers := [], localStream := ls },
   [Ev.userLeftMsg s.participantId])

/-- `toggleAudio(enabled)`: only with a local stream; flips the enabled
flag of every audio track and broadcasts the media state. -/
def toggleAudio (s : ManagerState) (enabled : Bool) :
    ManagerState × List Ev :=
  match s.localStream with
  | none => (s, [])
  | some ts =>
    let ts1 := ts.map (fun t =>
      if t.kind == TrackKind.audio then { t with enabled := enabled } else t)
    let s1 := { s with localStream := some ts1 }
    (s1, [Ev.mediaStateMsg s1.participantId enabled (isVideoEnabled s1) (isScreenSharing s1)])

/-- The video part of a `getUserMedia` constraint set: either off, the
primary profile with ideal/max bounds and facing mode, or the fallback's
fixed low profile. -/
inductive VideoConstraint
  | off
  | ideal (widthIdeal widthMax heightIdeal heightMax frameRateIdeal frameRateMax : Nat)
  | fixed (width height frameRate : Nat)
deriving DecidableEq, Repr

/-- The audio part: off, the primary processed profile, or the fallback's
plain `audio: true`. -/
inductive AudioConstraint
  | off
  | processed (echoCancellation noiseSuppression autoGainControl : Bool) (sampleRate : Nat)
  | plain
deriving DecidableEq, Repr

structure Constraints where
  video : VideoConstraint
  audio : AudioConstraint
deriving DecidableEq, Repr

/-- The first constraint set `initializeMedia` requests (1280x720 ideal,
1920x1080 max, 30 fps, processed audio at 48 kHz). -/
def primaryConstraints (video audio : Bool) : Constraints :=
  { video := if video then VideoConstraint.ideal 1280 1920 720 1080 30 30
             else VideoConstraint.off
    audio := if audio then AudioConstraint.processed true true true 48000
             else AudioConstraint.off }

/-- The conservative fallback profile (fixed 640x480 at 15 fps, default
audio) requested after the first attempt throws. -/
def fallbackConstraints (video audio : Bool) : Constraints :=
  { video := if video then VideoConstraint.fixed 640 480 15 else VideoConstraint.off
    audio := if audio then AudioConstraint.plain else AudioConstraint.off }

/-- Environment oracle for `navigator.mediaDevices.getUserMedia`: the
outcome of requesting a given constraint set. -/
def MediaEnv : Type := Constraints → Except String Stream

/-- The body of the `peers.forEach` loop of
`updatePeerConnectionsWithStream()`: on the record's transport,
`removeTrack` every sender that carries a track (nulling it) and then
`addTrack` each track of the new local stream. -/
def updatePeerStep (ts : Stream) (acc : ManagerState)
    (kv : String × PeerRec) : ManagerState :=
  match mapGet acc.transports kv.2.transportId with
  | some tr =>
    let cleared := tr.senders.map (fun sd =>
      match sd.track with
      | some _ => (⟨none⟩ : Sender)
      | none => sd)
    let added := ts.map (fun t => (⟨some t⟩ : Sender))
    let tr1 := { tr with senders := cleared ++ added }
    { acc with transports := mapSet acc.transports kv.2.transportId tr1 }
  | none => acc

/-- `updatePeerConnectionsWithStream()`: nothing without a local stream,
otherwise run the loop body over every record of the table. -/
def updatePeerConnectionsWithStream (s : ManagerState) : ManagerState :=
  match s.localStream with
  | none => s
  | some ts => s.peers.foldl (updatePeerStep ts) s

/-- Result of `initializeMedia`: the new state, the emitted events, the
sequence of `getUserMedia` requests actually made, and the outcome
(the returned stream, or the error rethrown to the caller). -/
structure MediaResult where
  state : ManagerState
  events : List Ev
  requests : List Constraints
  outcome : Except String Stream
deriving Repr

/-- `initializeMedia(video, audio)`: stop any existing local tracks, try
the primary profile, and on failure retry exactly once with the fallback
profile; if that fails too the fallback error is rethrown.  On success
the stream is stored and re-attached to every existing transport. -/
def initializeMedia (env : MediaEnv) (s : ManagerState)
    (video audio : Bool) : MediaResult :=
  let s0 := { s with localStream :=
    s.localStream.map (fun ts => ts.map (fun t => { t with stopped := true })) }
  let c1 := primaryConstraints video audio
  match env c1 with
  | Except.ok strm =>
    let s1 := updatePeerConnectionsWithStream { s0 with localStream := some strm }
    ⟨s1, [], [c1], Except.ok strm⟩
  | Except.error _ =>
    let c2 := fallbackConstraints video audio
    match env c2 with
    | Except.ok strm =>
      let s1 := updatePeerConnectionsWithStream { s0 with localStream := some strm }
      ⟨s1, [], [c1, c2], Except.ok strm⟩
    | Except.error e2 => ⟨s0, [], [c1, c2], Except.error e2⟩

/-- `sender.replaceTrack(vt)` on the first sender that currently carries
a video track (the `find` in the source); other senders untouched. -/
def replaceFirstVideoSender : List Sender → MediaTrack → List Sender
  | [], _ => []
  | sd :: rest, vt =>
    match sd.track with
    | some t =>
      if t.kind == TrackKind.video then (⟨some vt⟩ : Sender) :: rest
      else sd :: replaceFirstVideoSender rest vt
    | none => sd :: replaceFirstVideoSender rest vt

/-- The body of the `peers.forEach` loop that replaces the outbound
video track on one peer transport in place. -/
def replaceVideoStep (vt : MediaTrack) (acc : ManagerState)
    (kv : String × PeerRec) : ManagerState :=
  match mapGet acc.transports kv.2.transportId with
  | some tr =>
    let tr1 := { tr with senders := replaceFirstVideoSender tr.senders vt }
    { acc with transports := mapSet acc.transports kv.2.transportId tr1 }
  | none => acc

/-- The `peers.forEach` loop that replaces the outbound video track on
every peer transport in place. -/
def replaceVideoOnAllPeers (s : ManagerState) (vt : MediaTrack) : ManagerState :=
  s.peers.foldl (replaceVideoStep vt) s

/-- `startScreenShare()`: acquire display capture (oracle `disp`), append
the current local audio track to the screen stream if available, swap the
screen video track onto the first video sender of every peer transport,
and broadcast `(isAudioEnabled, true, true)`.  The screen track's
`onended` is wired to `stopScreenShare`; the local stream field is not
reassigned.  On capture failure the error is rethrown. -/
def startScreenShare (disp : Except String Stream) (s : ManagerState) :
    ManagerState × List Ev × Except String Stream :=
  match disp with
  | Except.error e => (s, [], Except.error e)
  | Except.ok screenTracks =>
    let screenStream :=
      match s.localStream with
      | some ts =>
        match audioTracksOf ts with
        | a :: _ => screenTracks ++ [a]
        | [] => screenTracks
      | none => screenTracks
    let s1 :=
      match videoTracksOf screenStream with
      | vt :: _ => replaceVideoOnAllPeers s vt
      | [] => s
    (s1, [Ev.mediaStateMsg s1.participantId (isAudioEnabled s1) true true],
     Except.ok screenStream)

/-- `stopScreenShare()`: re-acquire the camera via
`initializeMedia(true, isAudioEnabled())`, swap the fresh camera video
track onto every peer transport, and broadcast
`(isAudioEnabled, isVideoEnabled, false)`.  All errors are caught and
only logged. -/
def stopScreenShare (env : MediaEnv) (s : ManagerState) :
    ManagerState × List Ev :=
  let r := initializeMedia env s true (isAudioEnabled s)
  match r.outcome with
  | Except.error _ => (r.state, r.events)
  | Except.ok strm =>
    let s1 :=
      match videoTracksOf strm with
      | vt :: _ => replaceVideoOnAllPeers r.state vt
      | [] => r.state
    (s1, r.events ++
      [Ev.mediaStateMsg s1.participantId (isAudioEnabled s1) (isVideoEnabled s1) false])

/-- A screen share started and then ended by the display track's `ended`
signal (whose handler the source wires to `stopScreenShare`). -/
def screenShareRoundTrip (disp : Except String Stream) (env : MediaEnv)
    (s : ManagerState) : ManagerState × List Ev :=
  match startScreenShare disp s with
  | (s1, ev1, Except.ok _) =>
    let (s2, ev2) := stopScreenShare env s1
    (s2, ev1 ++ ev2)
  | (s1, ev1, Except.error _) => (s1, ev1)

/-- Inputs the event loop can deliver to a manager (signalling broadcasts,
browser transport callbacks, timer callbacks, UI calls). -/
inductive MInput
  | userJoined (pid name : String)
  | userLeft (pid : String)
  | offerIn (src dst name : String)
  | answerIn (src dst : String)
  | connChange (tid : Nat) (cs : ConnState)
  | timerFire (timerId : Nat)
  | doJoin
  | doLeave
  | doToggleAudio (enabled : Bool)
deriving DecidableEq, Repr

/-- One event-loop step of the manager. -/
def step (s : ManagerState) : MInput → ManagerState × List Ev
  | MInput.userJoined pid name => handleUserJoined s pid name
  | MInput.userLeft pid => handleUserLeft s pid
  | MInput.offerIn src dst name => handleOffer s src dst name
  | MInput.answerIn src dst => handleAnswer s src dst
  | MInput.connChange tid cs => handleConnStateChange s tid cs
  | MInput.timerFire timerId => handleGraceTimerFire s timerId
  | MInput.doJoin => joinMeeting s
  | MInput.doLeave => leaveMeeting s
  | MInput.doToggleAudio enabled => toggleAudio s enabled

theorem mapGet_mapSet_self {κ β : Type} [DecidableEq κ]
    (m : List (κ × β)) (k : κ) (v : β) :
    mapGet (mapSet m k v) k = some v := by
  induction m with
  | nil => simp [mapSet, mapGet]
  | cons kv rest ih =>
    by_cases h : kv.1 = k
    · simp [mapSet, mapGet, h]
    · simp [mapSet, mapGet, h, ih]

theorem mapGet_mapSet_ne {κ β : Type} [DecidableEq κ]
    (m : List (κ × β)) (k k2 : κ) (v : β) (h : k ≠ k2) :
    mapGet (mapSet m k2 v) k = mapGet m k := by
  have h2 : k2 ≠ k := Ne.symm h
  induction m with
  | nil => simp [mapSet, mapGet, h2]
  | cons kv rest ih =>
    by_cases h0 : kv.1 = k2
    · simp [mapSet, mapGet, h0, h2]
    · simp [mapSet, mapGet, h0, ih]

theorem mapGet_mapDelete_self {κ β : Type} [DecidableEq κ]
    (m : List (κ × β)) (k : κ) :
    mapGet (mapDelete m k) k = none := by
  induction m with
  | nil => rfl
  | cons kv rest ih =>
    by_cases h : kv.1 = k
    · simpa [mapDelete, List.filter_cons, h] using ih
    · simpa [mapDelete, List.filter_cons, h, mapGet] using ih

theorem mapGet_mem {κ β : Type} [DecidableEq κ]
    {m : List (κ × β)} {k : κ} {v : β} (h : mapGet m k = some v) :
    (k, v) ∈ m := by
  induction m with
  | nil => simp [mapGet] at h
  | cons kv rest ih =>
    by_cases h0 : kv.1 = k
    · simp [mapGet, h0] at h
      cases kv with
      | mk a b => simp_all
    · simp [mapGet, h0] at h
      exact List.mem_cons_of_mem _ (ih h)

/-- A user-left announcement for an unknown identity is a no-op. -/
theorem handleUserLeft_absent (s : ManagerState) (p : String)
    (h : mapGet s.peers p = none) : handleUserLeft s p = (s, []) := by
  simp [handleUserLeft, h]

/-- C5: processing the same user-left announcement twice fires the
peer-left notification exactly once; after the record is gone the second
announcement changes nothing and emits nothing. -/
theorem userLeft_twice_single_notification (s : ManagerState) (p : String)
    (pr : PeerRec) (hp : mapGet s.peers p = some pr) :
    ((handleUserLeft s p).2 ++ (handleUserLeft (handleUserLeft s p).1 p).2).countP
        (fun e => e == Ev.peerLeftEvt p) = 1 ∧
    handleUserLeft (handleUserLeft s p).1 p = ((handleUserLeft s p).1, []) := by
  have h1 : handleUserLeft s p =
      ({ s with
          transports :=
            match mapGet s.transports pr.transportId with
            | some tr =>
              mapSet s.transports pr.transportId { tr with connState := ConnState.closed }
            | none => s.transports,
          peers := mapDelete s.peers p },
        [Ev.peerLeftEvt p,
         Ev.participantCountEvt (mapSize (mapDelete s.peers p) + 1)]) := by
    cases hmt : mapGet s.transports pr.transportId <;>
      simp [handleUserLeft, hp, hmt, updateParticipantCount]
  rw [h1]
  have h2 := handleUserLeft_absent
    ({ s with
        transports :=
          match mapGet s.transports pr.transportId with
          | some tr =>
            mapSet s.transports pr.transportId { tr with connState := ConnState.closed }
          | none => s.transports,
        peers := mapDelete s.peers p }) p (mapGet_mapDelete_self _ _)
  rw [h2]
  simp [List.countP_cons]

/-- Witness for C5 at a concrete one-peer state. -/
theorem userLeft_twice_single_notification_witness :
    let s : ManagerState :=
      { mkManager "m" "a" "Alice" with
          peers := [("b", ⟨"b", 0, "Bob", true, true, false⟩)]
          transports := [(0, ⟨"b", ConnState.connected, []⟩)]
          nextTransportId := 1 }
    ((handleUserLeft s "b").2 ++ (handleUserLeft (handleUserLeft s "b").1 "b").2).countP
        (fun e => e == Ev.peerLeftEvt "b") = 1 ∧
    handleUserLeft (handleUserLeft s "b").1 "b" = ((handleUserLeft s "b").1, []) := by
  exact userLeft_twice_single_notification _ "b" ⟨"b", 0, "Bob", true, true, false⟩ rfl

/-- C10: `joinMeeting` is guarded by `isInitialized`: the first call sets
the flag, fires the participant count and broadcasts the join
announcement; any call on an initialized manager returns immediately with
no state change and no output. -/
theorem joinMeeting_idempotent (s : ManagerState) :
    (s.isInitialized = false →
      (joinMeeting s).1 = { s with isInitialized := true } ∧
      (joinMeeting s).2 =
        [Ev.participantCountEvt (mapSize s.peers + 1), Ev.userJoinedMsg s.participantId] ∧
      joinMeeting (joinMeeting s).1 = ((joinMeeting s).1, [])) ∧
    (s.isInitialized = true → joinMeeting s = (s, [])) := by
  have hinit : ∀ t : ManagerState, t.isInitialized = true → joinMeeting t = (t, []) :=
    fun t ht => by simp [joinMeeting, ht]
  constructor
  · intro h
    refine ⟨by simp [joinMeeting, h],
            by simp [joinMeeting, h, updateParticipantCount, mapSize], ?_⟩
    exact hinit _ (by simp [joinMeeting, h])
  · exact hinit s

/-- Witness for C10 on a fresh manager. -/
theorem joinMeeting_idempotent_witness :
    (joinMeeting (mkManager "m" "a" "Alice")).2 =
      [Ev.participantCountEvt 1, Ev.userJoinedMsg "a"] ∧
    joinMeeting (joinMeeting (mkManager "m" "a" "Alice")).1 =
      ((joinMeeting (mkManager "m" "a" "Alice")).1, []) := by
  have h := joinMeeting_idempotent (mkManager "m" "a" "Alice")
  exact ⟨(h.1 rfl).2.1, (h.1 rfl).2.2⟩

/-- C1: a duplicate user-joined announcement for an already-known peer
leaves exactly one record in the table (the `Map` key is overwritten),
but the source, lacking an existence check in `handleUserJoined`,
allocates a fresh transport, overwrites the existing record with it, and
sends a second offer. -/
theorem duplicate_join_sends_second_offer :
    mapSize (handleUserJoined
      (handleUserJoined (mkManager "m" "a" "Alice") "b" "Bob").1 "b" "Bob").1.peers = 1 ∧
    ((handleUserJoined (mkManager "m" "a" "Alice") "b" "Bob").2 ++
     (handleUserJoined
       (handleUserJoined (mkManager "m" "a" "Alice") "b" "Bob").1 "b" "Bob").2).countP
      (fun e => e == Ev.offerMsg "a" "b") = 2 ∧
    mapGet (handleUserJoined (mkManager "m" "a" "Alice") "b" "Bob").1.peers "b" =
      some ⟨"b", 0, "Bob", true, true, false⟩ ∧
    mapGet (handleUserJoined
      (handleUserJoined (mkManager "m" "a" "Alice") "b" "Bob").1 "b" "Bob").1.peers "b" =
      some ⟨"b", 1, "Bob", true, true, false⟩ := by
  decide

/-- C2: glare between managers "a" and "b" (each processes the other's
join announcement and then the other's offer).  Both sides send an offer,
and then BOTH sides replace their offering transport (id 0 becomes id 1)
and send an answer: no tie-break on the identities selects a single
answering side. -/
theorem glare_unresolved_both_sides_answer :
    (handleUserJoined (mkManager "m" "a" "Alice") "b" "Bob").2.countP
      (fun e => e == Ev.offerMsg "a" "b") = 1 ∧
    (handleUserJoined (mkManager "m" "b" "Bob") "a" "Alice").2.countP
      (fun e => e == Ev.offerMsg "b" "a") = 1 ∧
    (handleOffer (handleUserJoined (mkManager "m" "a" "Alice") "b" "Bob").1 "b" "a" "Bob").2 =
      [Ev.answerMsg "a" "b"] ∧
    (handleOffer (handleUserJoined (mkManager "m" "b" "Bob") "a" "Alice").1 "a" "b" "Alice").2 =
      [Ev.answerMsg "b" "a"] ∧
    mapGet (handleUserJoined (mkManager "m" "a" "Alice") "b" "Bob").1.peers "b" =
      some ⟨"b", 0, "Bob", true, true, false⟩ ∧
    mapGet (handleOffer (handleUserJoined (mkManager "m" "a" "Alice") "b" "Bob").1
      "b" "a" "Bob").1.peers "b" = some ⟨"b", 1, "Bob", true, true, false⟩ ∧
    mapGet (handleUserJoined (mkManager "m" "b" "Bob") "a" "Alice").1.peers "a" =
      some ⟨"a", 0, "Alice", true, true, false⟩ ∧
    mapGet (handleOffer (handleUserJoined (mkManager "m" "b" "Bob") "a" "Alice").1
      "a" "b" "Alice").1.peers "a" = some ⟨"a", 1, "Alice", true, true, false⟩ := by
  decide

/-- C4 counterexample: on a state with one peer record, `leaveMeeting`
clears the table but fires zero peer-left notifications, where the claim
demands one per existing record. -/
theorem leaveMeeting_fires_no_peer_left :
    mapSize (handleUserJoined (mkManager "m" "a" "Alice") "b" "Bob").1.peers = 1 ∧
    (leaveMeeting (handleUserJoined (mkManager "m" "a" "Alice") "b" "Bob").1).1.peers = [] ∧
    ((leaveMeeting (handleUserJoined (mkManager "m" "a" "Alice") "b" "Bob").1).2).countP
      (fun e => match e with | Ev.peerLeftEvt _ => true | _ => false) = 0 := by
  decide

/-- C4 (amended): a transition to CLOSED caused by a remote left
announcement or by the transport reporting closed destroys the record and
fires exactly one peer-left notification; local `leaveMeeting` destroys
every record but fires no peer-left notification at all. -/
theorem closed_transitions_amended (s : ManagerState) (p : String)
    (pr : PeerRec) (tid : Nat) (tr : Transport)
    (hp : mapGet s.peers p = some pr)
    (ht : mapGet s.transports tid = some tr) (ho : tr.ownerPeerId = p) :
    ((handleUserLeft s p).1.peers = mapDelete s.peers p ∧
     (handleUserLeft s p).2.countP (fun e => e == Ev.peerLeftEvt p) = 1) ∧
    ((handleConnStateChange s tid ConnState.closed).1.peers = mapDelete s.peers p ∧
     (handleConnStateChange s tid ConnState.closed).2.countP
        (fun e => e == Ev.peerLeftEvt p) = 1) ∧
    ((leaveMeeting s).1.peers = [] ∧
     ∀ q, Ev.peerLeftEvt q ∉ (leaveMeeting s).2) := by
  refine ⟨⟨?_, ?_⟩, ⟨?_, ?_⟩, ⟨?_, ?_⟩⟩
  · cases hmt : mapGet s.transports pr.transportId <;>
      simp [handleUserLeft, hp, hmt]
  · cases hmt : mapGet s.transports pr.transportId <;>
      simp [handleUserLeft, hp, hmt, updateParticipantCount, List.countP_cons]
  · simp [handleConnStateChange, ht, ho]
  · simp [handleConnStateChange, ht, ho, updateParticipantCount, List.countP_cons]
  · simp [leaveMeeting]
  · intro q
    simp [leaveMeeting]

/-- Witness for C4's amended theorem at a concrete one-peer state. -/
theorem closed_transitions_amended_witness :
    let s : ManagerState :=
      { mkManager "m" "a" "Alice" with
          peers := [("b", ⟨"b", 0, "Bob", true, true, false⟩)]
          transports := [(0, ⟨"b", ConnState.connected, []⟩)]
          nextTransportId := 1 }
    ((handleUserLeft s "b").1.peers = mapDelete s.peers "b" ∧
     (handleUserLeft s "b").2.countP (fun e => e == Ev.peerLeftEvt "b") = 1) ∧
    ((handleConnStateChange s 0 ConnState.closed).1.peers = mapDelete s.peers "b" ∧
     (handleConnStateChange s 0 ConnState.closed).2.countP
        (fun e => e == Ev.peerLeftEvt "b") = 1) ∧
    ((leaveMeeting s).1.peers = [] ∧
     ∀ q, Ev.peerLeftEvt q ∉ (leaveMeeting s).2) := by
  exact closed_transitions_amended _ "b" ⟨"b", 0, "Bob", true, true, false⟩ 0
    ⟨"b", ConnState.connected, []⟩ rfl rfl rfl

/-- Toggling the audio-enabled flag to false and then to true is the same
stream rewrite as toggling it to true once. -/
theorem toggle_map_twice (ts : Stream) :
    (ts.map (fun t => if t.kind == TrackKind.audio then { t with enabled := false } else t)).map
      (fun t => if t.kind == TrackKind.audio then { t with enabled := true } else t) =
    ts.map (fun t => if t.kind == TrackKind.audio then { t with enabled := true } else t) := by
  induction ts with
  | nil => rfl
  | cons t rest ih =>
    simp only [List.map_cons, List.cons.injEq]
    refine ⟨?_, ih⟩
    by_cases h : t.kind = TrackKind.audio
    · simp [h]
    · simp [h]

/-- C6: with an acquired local stream, `toggleAudio(false)` then
`toggleAudio(true)` leaves the Peer Session Table and every transport
untouched, emits exactly the two media-state broadcasts (in particular
zero offers or answers), and only rewrites the enabled flag of the audio
tracks. -/
theorem toggleAudio_mute_unmute (s : ManagerState) (ts : Stream)
    (h : s.localStream = some ts) :
    (toggleAudio (toggleAudio s false).1 true).1.peers = s.peers ∧
    (toggleAudio (toggleAudio s false).1 true).1.transports = s.transports ∧
    (toggleAudio s false).2 ++ (toggleAudio (toggleAudio s false).1 true).2 =
      [Ev.mediaStateMsg s.participantId false (isVideoEnabled (toggleAudio s false).1)
          (isScreenSharing (toggleAudio s false).1),
       Ev.mediaStateMsg s.participantId true
          (isVideoEnabled (toggleAudio (toggleAudio s false).1 true).1)
          (isScreenSharing (toggleAudio (toggleAudio s false).1 true).1)] ∧
    (toggleAudio (toggleAudio s false).1 true).1.localStream =
      some (ts.map (fun t => if t.kind == TrackKind.audio then { t with enabled := true } else t)) := by
  refine ⟨?_, ?_, ?_, ?_⟩ <;> simp [toggleAudio, h, toggle_map_twice]
  intro t _
  by_cases hk : t.kind = TrackKind.audio <;> simp [hk]

/-- Witness for C6 on a stream with one enabled camera track and one
muted microphone track. -/
theorem toggleAudio_mute_unmute_witness :
    let cam : MediaTrack := ⟨TrackKind.video, TrackSource.camera, true, false⟩
    let mic : MediaTrack := ⟨TrackKind.audio, TrackSource.mic, false, false⟩
    let s : ManagerState := { mkManager "m" "a" "Alice" with localStream := some [cam, mic] }
    (toggleAudio (toggleAudio s false).1 true).1.peers = s.peers ∧
    (toggleAudio (toggleAudio s false).1 true).1.transports = s.transports ∧
    (toggleAudio s false).2 ++ (toggleAudio (toggleAudio s false).1 true).2 =
      [Ev.mediaStateMsg s.participantId false (isVideoEnabled (toggleAudio s false).1)
          (isScreenSharing (toggleAudio s false).1),
       Ev.mediaStateMsg s.participantId true
          (isVideoEnabled (toggleAudio (toggleAudio s false).1 true).1)
          (isScreenSharing (toggleAudio (toggleAudio s false).1 true).1)] ∧
    (toggleAudio (toggleAudio s false).1 true).1.localStream =
      some ([⟨TrackKind.video, TrackSource.camera, true, false⟩,
             ⟨TrackKind.audio, TrackSource.mic, false, false⟩].map
        (fun t => if t.kind == TrackKind.audio then { t with enabled := true } else t)) := by
  exact toggleAudio_mute_unmute _ _ rfl

/-- C7: `initializeMedia` requests the primary profile; on success that
stream is returned after one request.  On failure it retries exactly once
with the conservative fallback profile (fixed 640x480 at 15 fps, plain
default audio); the fallback stream is returned on success, and if the
fallback also fails its error propagates with no further request. -/
theorem initializeMedia_retry_once (env : MediaEnv) (s : ManagerState)
    (v a : Bool) :
    fallbackConstraints true true =
      ⟨VideoConstraint.fixed 640 480 15, AudioConstraint.plain⟩ ∧
    (∀ strm, env (primaryConstraints v a) = Except.ok strm →
      (initializeMedia env s v a).outcome = Except.ok strm ∧
      (initializeMedia env s v a).requests = [primaryConstraints v a]) ∧
    (∀ e strm, env (primaryConstraints v a) = Except.error e →
      env (fallbackConstraints v a) = Except.ok strm →
      (initializeMedia env s v a).outcome = Except.ok strm ∧
      (initializeMedia env s v a).requests =
        [primaryConstraints v a, fallbackConstraints v a]) ∧
    (∀ e e2, env (primaryConstraints v a) = Except.error e →
      env (fallbackConstraints v a) = Except.error e2 →
      (initializeMedia env s v a).outcome = Except.error e2 ∧
      (initializeMedia env s v a).requests =
        [primaryConstraints v a, fallbackConstraints v a]) := by
  refine ⟨rfl, ?_, ?_, ?_⟩
  · intro strm h1
    simp [initializeMedia, h1]
  · intro e strm h1 h2
    simp [initializeMedia, h1, h2]
  · intro e e2 h1 h2
    simp [initializeMedia, h1, h2]

/-- Witness for C7: an environment that denies the primary profile and
grants the fallback. -/
theorem initializeMedia_retry_once_witness :
    let env : MediaEnv := fun c =>
      if c = primaryConstraints true true then Except.error "denied" else Except.ok []
    (initializeMedia env (mkManager "m" "a" "Alice") true true).outcome = Except.ok [] ∧
    (initializeMedia env (mkManager "m" "a" "Alice") true true).requests =
      [primaryConstraints true true, fallbackConstraints true true] := by
  exact (initializeMedia_retry_once _ (mkManager "m" "a" "Alice") true true).2.2.1
    "denied" [] rfl rfl

theorem find_append_last {α : Type} (p : α → Bool) (l : List α) (x : α)
    (h : ∀ u ∈ l, p u = false) (hx : p x = true) :
    (l ++ [x]).find? p = some x := by
  induction l with
  | nil => simp [List.find?, hx]
  | cons u rest ih =>
    have hu := h u (List.mem_cons_self u rest)
    simp only [List.cons_append, List.find?, hu]
    exact ih (fun v hv => h v (List.mem_cons_of_mem _ hv))

/-- Unfolding of the `disconnected` branch of `onconnectionstatechange`:
the transport state is recorded and a 5000 ms grace timer is armed. -/
theorem hcsc_disconnected (t : ManagerState) (tid : Nat) (trX : Transport)
    (h : mapGet t.transports tid = some trX) :
    handleConnStateChange t tid ConnState.disconnected =
      ({ t with
          transports := mapSet t.transports tid { trX with connState := ConnState.disconnected }
          timers := t.timers ++ [⟨t.nextTimerId, tid, trX.ownerPeerId, 5000⟩]
          nextTimerId := t.nextTimerId + 1 }, []) := by
  simp [handleConnStateChange, h]

/-- Unfolding of the `connected` branch: only the transport state field
changes; the armed timer is not cancelled. -/
theorem hcsc_connected (t : ManagerState) (tid : Nat) (trX : Transport)
    (h : mapGet t.transports tid = some trX) :
    handleConnStateChange t tid ConnState.connected =
      ({ t with
          transports := mapSet t.transports tid { trX with connState := ConnState.connected } },
        []) := by
  simp [handleConnStateChange, h]

/-- Unfolding of the grace-timer callback: the closure re-checks the
captured transport's state and acts only if it is still disconnected. -/
theorem hgtf_unfold (t : ManagerState) (k : Nat) (tm : GraceTimer) (trX : Transport)
    (hfind : t.timers.find? (fun u => u.timerId == k) = some tm)
    (htr : mapGet t.transports tm.transportId = some trX) :
    handleGraceTimerFire t k =
      if trX.connState = ConnState.disconnected then
        ({ t with
            peers := mapDelete t.peers tm.peerId
            timers := t.timers.filter (fun u => !(u.timerId == k)) },
         [Ev.peerLeftEvt tm.peerId,
          Ev.participantCountEvt (mapSize (mapDelete t.peers tm.peerId) + 1)])
      else
        ({ t with timers := t.timers.filter (fun u => !(u.timerId == k)) }, []) := by
  by_cases hcs : trX.connState = ConnState.disconnected <;>
    simp [handleGraceTimerFire, hfind, htr, hcs, updateParticipantCount]

/-- C3: for a connected peer, a transport disconnection that resolves
(transport back to connected) before the armed 5000 ms grace timer fires
produces no peer-left event and keeps the record; a disconnection that
persists until the timer fires produces exactly one peer-left event,
destroys the record and recomputes the participant count. -/
theorem disconnect_grace_window (s : ManagerState) (p : String)
    (pr : PeerRec) (tr : Transport)
    (hp : mapGet s.peers p = some pr)
    (ht : mapGet s.transports pr.transportId = some tr)
    (ho : tr.ownerPeerId = p)
    (_hc : tr.connState = ConnState.connected)
    (hf : ∀ u ∈ s.timers, u.timerId ≠ s.nextTimerId) :
    ((handleConnStateChange s pr.transportId ConnState.disconnected).2 = [] ∧
     (handleConnStateChange s pr.transportId ConnState.disconnected).1.timers =
       s.timers ++ [⟨s.nextTimerId, pr.transportId, p, 5000⟩] ∧
     (handleConnStateChange
        (handleConnStateChange s pr.transportId ConnState.disconnected).1
        pr.transportId ConnState.connected).2 = [] ∧
     (handleGraceTimerFire
        (handleConnStateChange
          (handleConnStateChange s pr.transportId ConnState.disconnected).1
          pr.transportId ConnState.connected).1
        s.nextTimerId).2 = [] ∧
     mapGet
       (handleGraceTimerFire
         (handleConnStateChange
           (handleConnStateChange s pr.transportId ConnState.disconnected).1
           pr.transportId ConnState.connected).1
         s.nextTimerId).1.peers p = some pr) ∧
    ((handleGraceTimerFire
        (handleConnStateChange s pr.transportId ConnState.disconnected).1
        s.nextTimerId).2 =
       [Ev.peerLeftEvt p,
        Ev.participantCountEvt (mapSize (mapDelete s.peers p) + 1)] ∧
     mapGet
       (handleGraceTimerFire
         (handleConnStateChange s pr.transportId ConnState.disconnected).1
         s.nextTimerId).1.peers p = none) := by
  have a1 : (handleConnStateChange s pr.transportId ConnState.disconnected).2 = [] := by
    simp [handleConnStateChange, ht]
  have a2 : (handleConnStateChange s pr.transportId ConnState.disconnected).1.transports =
      mapSet s.transports pr.transportId { tr with connState := ConnState.disconnected } := by
    simp [handleConnStateChange, ht]
  have a3 : (handleConnStateChange s pr.transportId ConnState.disconnected).1.timers =
      s.timers ++ [⟨s.nextTimerId, pr.transportId, tr.ownerPeerId, 5000⟩] := by
    simp [handleConnStateChange, ht]
  have a4 : (handleConnStateChange s pr.transportId ConnState.disconnected).1.peers = s.peers := by
    simp [handleConnStateChange, ht]
  set S1 := (handleConnStateChange s pr.transportId ConnState.disconnected).1 with hS1
  have hfind1 : S1.timers.find? (fun u => u.timerId == s.nextTimerId) =
      some ⟨s.nextTimerId, pr.transportId, tr.ownerPeerId, 5000⟩ := by
    rw [a3]
    exact find_append_last _ _ _ (fun u hu => by simpa using hf u hu) (by simp)
  have b0 : mapGet S1.transports pr.transportId =
      some { tr with connState := ConnState.disconnected } := by
    rw [a2]; exact mapGet_mapSet_self _ _ _
  have b1 : (handleConnStateChange S1 pr.transportId ConnState.connected).2 = [] := by
    simp [handleConnStateChange, b0]
  have b2 : (handleConnStateChange S1 pr.transportId ConnState.connected).1.transports =
      mapSet S1.transports pr.transportId { tr with connState := ConnState.connected } := by
    simp [handleConnStateChange, b0]
  have b3 : (handleConnStateChange S1 pr.transportId ConnState.connected).1.timers =
      S1.timers := by
    simp [handleConnStateChange, b0]
  have b4 : (handleConnStateChange S1 pr.transportId ConnState.connected).1.peers =
      S1.peers := by
    simp [handleConnStateChange, b0]
  set S2 := (handleConnStateChange S1 pr.transportId ConnState.connected).1 with hS2
  have hfind2 : S2.timers.find? (fun u => u.timerId == s.nextTimerId) =
      some ⟨s.nextTimerId, pr.transportId, tr.ownerPeerId, 5000⟩ := by
    rw [b3]; exact hfind1
  have c0 : mapGet S2.transports pr.transportId =
      some { tr with connState := ConnState.connected } := by
    rw [b2]; exact mapGet_mapSet_self _ _ _
  have c1 : (handleGraceTimerFire S2 s.nextTimerId).2 = [] := by
    simp [handleGraceTimerFire, hfind2, c0]
  have c2 : (handleGraceTimerFire S2 s.nextTimerId).1.peers = S2.peers := by
    simp [handleGraceTimerFire, hfind2, c0]
  have d1 : (handleGraceTimerFire S1 s.nextTimerId).2 =
      [Ev.peerLeftEvt tr.ownerPeerId,
       Ev.participantCountEvt (mapSize (mapDelete S1.peers tr.ownerPeerId) + 1)] := by
    simp [handleGraceTimerFire, hfind1, b0, updateParticipantCount]
  have d2 : (handleGraceTimerFire S1 s.nextTimerId).1.peers =
      mapDelete S1.peers tr.ownerPeerId := by
    simp [handleGraceTimerFire, hfind1, b0]
  refine ⟨⟨a1, ?_, b1, c1, ?_⟩, ?_, ?_⟩
  · rw [a3, ho]
  · rw [c2, b4, a4]; exact hp
  · rw [d1, a4, ho]
  · rw [d2, a4, ho]; exact mapGet_mapDelete_self _ _

/-- Witness for C3 at a concrete one-peer state with a connected
transport and no pending timers. -/
theorem disconnect_grace_window_witness :
    let s : ManagerState :=
      { mkManager "m" "a" "Alice" with
          peers := [("b", ⟨"b", 0, "Bob", true, true, false⟩)]
          transports := [(0, ⟨"b", ConnState.connected, []⟩)]
          nextTransportId := 1 }
    ((handleGraceTimerFire
        (handleConnStateChange
          (handleConnStateChange s 0 ConnState.disconnected).1
          0 ConnState.connected).1 0).2 = [] ∧
     mapGet
       (handleGraceTimerFire
         (handleConnStateChange
           (handleConnStateChange s 0 ConnState.disconnected).1
           0 ConnState.connected).1 0).1.peers "b" =
       some ⟨"b", 0, "Bob", true, true, false⟩) ∧
    ((handleGraceTimerFire
        (handleConnStateChange s 0 ConnState.disconnected).1 0).2 =
       [Ev.peerLeftEvt "b", Ev.participantCountEvt 1] ∧
     mapGet
       (handleGraceTimerFire
         (handleConnStateChange s 0 ConnState.disconnected).1 0).1.peers "b" = none) := by
  have h := disconnect_grace_window
    ({ mkManager "m" "a" "Alice" with
        peers := [("b", ⟨"b", 0, "Bob", true, true, false⟩)]
        transports := [(0, ⟨"b", ConnState.connected, []⟩)]
        nextTransportId := 1 })
    "b" ⟨"b", 0, "Bob", true, true, false⟩ ⟨"b", ConnState.connected, []⟩
    rfl rfl rfl rfl (by simp [mkManager])
  exact ⟨⟨h.1.2.2.2.1, h.1.2.2.2.2⟩, ⟨h.2.1, h.2.2⟩⟩

/-- C9: on every event-loop step, any participant-count callback fired
during the step reports exactly the post-step table size plus one (the
local participant), and `getParticipantCount` always returns the table
size plus one. -/
theorem participantCount_correct (s : ManagerState) (i : MInput) :
    getParticipantCount (step s i).1 = mapSize (step s i).1.peers + 1 ∧
    ∀ n, Ev.participantCountEvt n ∈ (step s i).2 →
      n = mapSize (step s i).1.peers + 1 := by
  refine ⟨by simp [getParticipantCount], ?_⟩
  intro n hn
  cases i with
  | userJoined pid name =>
    by_cases h : pid = s.participantId
    · simp [step, handleUserJoined, h] at hn
    · simp_all [step, handleUserJoined, h, createPeerConnection, updateParticipantCount]
  | userLeft pid =>
    cases hx : mapGet s.peers pid with
    | none => simp [step, handleUserLeft, hx] at hn
    | some pr =>
      cases hmt : mapGet s.transports pr.transportId <;>
        simp_all [step, handleUserLeft, hx, hmt, updateParticipantCount]
  | offerIn src dst name =>
    by_cases h : dst = s.participantId
    · simp [step, handleOffer, h, createPeerConnection, mapGet_mapSet_self,
        updateParticipantCount] at hn
    · simp [step, handleOffer, h] at hn
  | answerIn src dst =>
    by_cases h : dst = s.participantId <;> simp [step, handleAnswer, h] at hn
  | connChange tid cs =>
    cases hx : mapGet s.transports tid with
    | none => simp [step, handleConnStateChange, hx] at hn
    | some tr =>
      cases cs <;> simp_all [step, handleConnStateChange, hx, updateParticipantCount]
  | timerFire k =>
    cases hx : s.timers.find? (fun u => u.timerId == k) with
    | none => simp [step, handleGraceTimerFire, hx] at hn
    | some tm =>
      cases hmt : mapGet s.transports tm.transportId with
      | none => simp [step, handleGraceTimerFire, hx, hmt] at hn
      | some tr =>
        by_cases hcs : tr.connState = ConnState.disconnected <;>
          simp_all [step, handleGraceTimerFire, hx, hmt, hcs, updateParticipantCount]
  | doJoin =>
    by_cases h : s.isInitialized <;>
      simp_all [step, joinMeeting, h, updateParticipantCount]
  | doLeave =>
    simp [step, leaveMeeting] at hn
  | doToggleAudio enabled =>
    cases hx : s.localStream with
    | none => simp [step, toggleAudio, hx] at hn
    | some ts => simp [step, toggleAudio, hx] at hn

/-- Witness for C9: the count reported while processing a join on a
fresh manager is the post-step table size plus one. -/
theorem participantCount_correct_witness :
    Ev.participantCountEvt 2 ∈
      (step (mkManager "m" "a" "Alice") (MInput.userJoined "b" "Bob")).2 ∧
    2 = mapSize
      (step (mkManager "m" "a" "Alice") (MInput.userJoined "b" "Bob")).1.peers + 1 := by
  exact ⟨by decide,
    (participantCount_correct (mkManager "m" "a" "Alice")
      (MInput.userJoined "b" "Bob")).2 2 (by decide)⟩

/-- Observable of a sender: it currently carries a camera video track. -/
def senderCameraVideo (sd : Sender) : Bool :=
  match sd.track with
  | some t => t.kind == TrackKind.video && t.source == TrackSource.camera
  | none => false

/-- Observable of a transport: some sender carries a camera video track. -/
def carriesCameraVideo (tr : Transport) : Bool :=
  tr.senders.any senderCameraVideo

/-- Two transports that agree on everything but their senders: same
captured peer id, same connection state. -/
def sendersOnlyDiff (t u : Transport) : Bool :=
  t.ownerPeerId == u.ownerPeerId && t.connState == u.connState

/-- Pointwise `sendersOnlyDiff` over two transport stores with the same
keys in the same order: no transport was created, dropped, closed or
reassigned between the two stores. -/
def transportsSendersOnly : List (Nat × Transport) → List (Nat × Transport) → Bool
  | [], [] => true
  | (k1, t1) :: r1, (k2, t2) :: r2 =>
    k1 == k2 && sendersOnlyDiff t1 t2 && transportsSendersOnly r1 r2
  | _ :: _, [] => false
  | [], _ :: _ => false

theorem sendersOnlyDiff_refl (t : Transport) : sendersOnlyDiff t t = true := by
  simp [sendersOnlyDiff]

theorem sendersOnlyDiff_trans {a b c : Transport}
    (h1 : sendersOnlyDiff a b = true) (h2 : sendersOnlyDiff b c = true) :
    sendersOnlyDiff a c = true := by
  simp [sendersOnlyDiff] at *
  exact ⟨h1.1.trans h2.1, h1.2.trans h2.2⟩

theorem tso_refl (m : List (Nat × Transport)) :
    transportsSendersOnly m m = true := by
  induction m with
  | nil => rfl
  | cons kv rest ih =>
    cases kv with
    | mk k t => simp [transportsSendersOnly, sendersOnlyDiff_refl, ih]

theorem tso_trans {a b c : List (Nat × Transport)}
    (h1 : transportsSendersOnly a b = true)
    (h2 : transportsSendersOnly b c = true) :
    transportsSendersOnly a c = true := by
  induction a generalizing b c with
  | nil =>
    cases b with
    | nil => exact h2
    | cons y ys => simp [transportsSendersOnly] at h1
  | cons x xs ih =>
    cases b with
    | nil => cases x; simp [transportsSendersOnly] at h1
    | cons y ys =>
      cases c with
      | nil => cases y; simp [transportsSendersOnly] at h2
      | cons z zs =>
        cases x with
        | mk k1 t1 =>
          cases y with
          | mk k2 t2 =>
            cases z with
            | mk k3 t3 =>
              simp only [transportsSendersOnly, Bool.and_eq_true] at h1 h2 ⊢
              refine ⟨⟨?_, sendersOnlyDiff_trans h1.1.2 h2.1.2⟩, ih h1.2 h2.2⟩
              have e1 : k1 = k2 := by simpa using h1.1.1
              have e2 : k2 = k3 := by simpa using h2.1.1
              simp [e1, e2]

theorem tso_mapSet (m : List (Nat × Transport)) (k : Nat)
    (tr tr2 : Transport) (h : mapGet m k = some tr)
    (hd : sendersOnlyDiff tr tr2 = true) :
    transportsSendersOnly m (mapSet m k tr2) = true := by
  induction m with
  | nil => simp [mapGet] at h
  | cons kv rest ih =>
    cases kv with
    | mk k0 t0 =>
      by_cases h0 : k0 = k
      · simp [mapGet, h0] at h
        subst h0
        simp [mapSet, transportsSendersOnly, tso_refl, h ▸ hd]
      · simp [mapGet, h0] at h
        simp [mapSet, h0, transportsSendersOnly, sendersOnlyDiff_refl, ih h]

/-- A fold whose every step only rewrites senders of existing transports
keeps the whole store senders-only-different. -/
theorem tso_foldl {α : Type} (f : ManagerState → α → ManagerState)
    (hf : ∀ acc x, transportsSendersOnly acc.transports (f acc x).transports = true)
    (l : List α) (st : ManagerState) :
    transportsSendersOnly st.transports (l.foldl f st).transports = true := by
  induction l generalizing st with
  | nil => exact tso_refl _
  | cons x rest ih => exact tso_trans (hf st x) (ih (f st x))

theorem tso_updatePeerStep (ts : Stream) (acc : ManagerState)
    (kv : String × PeerRec) :
    transportsSendersOnly acc.transports (updatePeerStep ts acc kv).transports = true := by
  cases hm : mapGet acc.transports kv.2.transportId with
  | none => simp [updatePeerStep, hm, tso_refl]
  | some tr =>
    simp only [updatePeerStep, hm]
    exact tso_mapSet _ _ _ _ hm (by simp [sendersOnlyDiff])

theorem tso_replaceVideoStep (vt : MediaTrack) (acc : ManagerState)
    (kv : String × PeerRec) :
    transportsSendersOnly acc.transports (replaceVideoStep vt acc kv).transports = true := by
  cases hm : mapGet acc.transports kv.2.transportId with
  | none => simp [replaceVideoStep, hm, tso_refl]
  | some tr =>
    simp only [replaceVideoStep, hm]
    exact tso_mapSet _ _ _ _ hm (by simp [sendersOnlyDiff])

/-- Both loop bodies leave every field but `transports` unchanged. -/
theorem foldl_fields {α : Type} (f : ManagerState → α → ManagerState)
    (hf : ∀ acc x, (f acc x).peers = acc.peers ∧
      (f acc x).localStream = acc.localStream ∧
      (f acc x).participantId = acc.participantId)
    (l : List α) (st : ManagerState) :
    (l.foldl f st).peers = st.peers ∧
    (l.foldl f st).localStream = st.localStream ∧
    (l.foldl f st).participantId = st.participantId := by
  induction l generalizing st with
  | nil => exact ⟨rfl, rfl, rfl⟩
  | cons x rest ih =>
    obtain ⟨h1, h2, h3⟩ := hf st x
    obtain ⟨g1, g2, g3⟩ := ih (f st x)
    exact ⟨g1.trans h1, g2.trans h2, g3.trans h3⟩

theorem updatePeerStep_fields (ts : Stream) (acc : ManagerState)
    (kv : String × PeerRec) :
    (updatePeerStep ts acc kv).peers = acc.peers ∧
    (updatePeerStep ts acc kv).localStream = acc.localStream ∧
    (updatePeerStep ts acc kv).participantId = acc.participantId := by
  cases hm : mapGet acc.transports kv.2.transportId <;>
    simp [updatePeerStep, hm]

theorem replaceVideoStep_fields (vt : MediaTrack) (acc : ManagerState)
    (kv : String × PeerRec) :
    (replaceVideoStep vt acc kv).peers = acc.peers ∧
    (replaceVideoStep vt acc kv).localStream = acc.localStream ∧
    (replaceVideoStep vt acc kv).participantId = acc.participantId := by
  cases hm : mapGet acc.transports kv.2.transportId <;>
    simp [replaceVideoStep, hm]

theorem replaceVideoOnAllPeers_fields (s : ManagerState) (vt : MediaTrack) :
    (replaceVideoOnAllPeers s vt).peers = s.peers ∧
    (replaceVideoOnAllPeers s vt).localStream = s.localStream ∧
    (replaceVideoOnAllPeers s vt).participantId = s.participantId :=
  foldl_fields _ (replaceVideoStep_fields vt) s.peers s

theorem updatePeerConnectionsWithStream_fields (t : ManagerState) :
    (updatePeerConnectionsWithStream t).peers = t.peers ∧
    (updatePeerConnectionsWithStream t).localStream = t.localStream ∧
    (updatePeerConnectionsWithStream t).participantId = t.participantId := by
  cases hls : t.localStream with
  | none => simp [updatePeerConnectionsWithStream, hls]
  | some ts =>
    have h := foldl_fields (updatePeerStep ts) (updatePeerStep_fields ts) t.peers t
    simpa [updatePeerConnectionsWithStream, hls] using h

/-- `isAudioEnabled` depends only on the local stream. -/
theorem isAudioEnabled_congr (t u : ManagerState)
    (h : t.localStream = u.localStream) : isAudioEnabled t = isAudioEnabled u := by
  simp [isAudioEnabled, h]

theorem senders_added_any (ts : Stream)
    (h : ts.any (fun t => t.kind == TrackKind.video && t.source == TrackSource.camera) = true) :
    (ts.map (fun t => (⟨some t⟩ : Sender))).any senderCameraVideo = true := by
  rcases List.any_eq_true.mp h with ⟨x, hx, hpx⟩
  refine List.any_eq_true.mpr ⟨⟨some x⟩, List.mem_map_of_mem _ hx, ?_⟩
  simpa [senderCameraVideo] using hpx

/-- Replacing the first video sender with a camera video track keeps the
sender list carrying a camera video track. -/
theorem replaceFirst_keeps_camera (l : List Sender) (vt : MediaTrack)
    (hvt : senderCameraVideo ⟨some vt⟩ = true)
    (h : l.any senderCameraVideo = true) :
    (replaceFirstVideoSender l vt).any senderCameraVideo = true := by
  induction l with
  | nil => simp at h
  | cons sd rest ih =>
    cases htrk : sd.track with
    | none =>
      have hsd : senderCameraVideo sd = false := by simp [senderCameraVideo, htrk]
      simp only [replaceFirstVideoSender, htrk, List.any_cons, hsd,
        Bool.false_or] at h ⊢
      exact ih h
    | some t =>
      by_cases hk : t.kind = TrackKind.video
      · simp [replaceFirstVideoSender, htrk, hk, List.any_cons, hvt]
      · have hsd : senderCameraVideo sd = false := by
          simp [senderCameraVideo, htrk, hk]
        simp only [replaceFirstVideoSender, htrk, List.any_cons, hsd,
          Bool.false_or] at h ⊢
        rw [if_neg (by simpa using hk)]
        simp only [List.any_cons, hsd, Bool.false_or]
        exact ih h

/-- Folding the `updatePeerConnectionsWithStream` loop body over a list
of records: any transport of a processed record ends up carrying a
camera video track of the new stream (and transports that already did
keep doing so). -/
theorem updStep_establishes (ts : Stream)
    (hcam : ts.any (fun t => t.kind == TrackKind.video && t.source == TrackSource.camera) = true) :
    ∀ (l : List (String × PeerRec)) (acc : ManagerState) (tid : Nat),
    ((∀ tr0, mapGet acc.transports tid = some tr0 → carriesCameraVideo tr0 = true) ∨
      ∃ kv ∈ l, kv.2.transportId = tid) →
    ∀ tr2, mapGet (l.foldl (updatePeerStep ts) acc).transports tid = some tr2 →
      carriesCameraVideo tr2 = true := by
  intro l
  induction l with
  | nil =>
    intro acc tid hpre tr2 hget
    rcases hpre with hL | ⟨kv, hkv, _⟩
    · exact hL tr2 hget
    · simp at hkv
  | cons kv0 rest ih =>
    intro acc tid hpre tr2 hget
    refine ih (updatePeerStep ts acc kv0) tid ?_ tr2 hget
    by_cases he : kv0.2.transportId = tid
    · left
      intro tr0 h0
      cases hm : mapGet acc.transports kv0.2.transportId with
      | none =>
        have hid : updatePeerStep ts acc kv0 = acc := by simp [updatePeerStep, hm]
        rw [hid, ← he, hm] at h0
        cases h0
      | some tr =>
        have hupd : (updatePeerStep ts acc kv0).transports =
            mapSet acc.transports kv0.2.transportId
              { tr with senders :=
                  tr.senders.map (fun sd =>
                    match sd.track with
                    | some _ => (⟨none⟩ : Sender)
                    | none => sd) ++ ts.map (fun t => (⟨some t⟩ : Sender)) } := by
          simp [updatePeerStep, hm]
        rw [← he, hupd, mapGet_mapSet_self] at h0
        cases h0
        simp [carriesCameraVideo, List.any_append, senders_added_any ts hcam]
    · have hsame : mapGet (updatePeerStep ts acc kv0).transports tid =
          mapGet acc.transports tid := by
        cases hm : mapGet acc.transports kv0.2.transportId with
        | none => simp [updatePeerStep, hm]
        | some tr =>
          simp only [updatePeerStep, hm]
          exact mapGet_mapSet_ne _ _ _ _ (fun hh => he hh.symm)
      rcases hpre with hL | ⟨kv, hkv, htid⟩
      · left
        intro tr0 h0
        rw [hsame] at h0
        exact hL tr0 h0
      · rcases List.mem_cons.mp hkv with hkv0 | hkvr
        · exact absurd (hkv0 ▸ htid) he
        · exact Or.inr ⟨kv, hkvr, htid⟩

/-- Folding the video-replacement loop body preserves the camera-video
observable of every transport that is either the target or covered by
the record list. -/
theorem replaceStep_preserves (vt : MediaTrack)
    (hvt : senderCameraVideo ⟨some vt⟩ = true) :
    ∀ (l : List (String × PeerRec)) (acc : ManagerState),
    (∀ kv ∈ l, ∀ tr2, mapGet acc.transports kv.2.transportId = some tr2 →
       carriesCameraVideo tr2 = true) →
    ∀ tid,
    (∀ tr0, mapGet acc.transports tid = some tr0 → carriesCameraVideo tr0 = true) →
    ∀ tr2, mapGet (l.foldl (replaceVideoStep vt) acc).transports tid = some tr2 →
      carriesCameraVideo tr2 = true := by
  intro l
  induction l with
  | nil =>
    intro acc _ tid htid tr2 hget
    exact htid tr2 hget
  | cons kv0 rest ih =>
    intro acc hA tid htid tr2 hget
    have hstep : ∀ u,
        (∀ tr0, mapGet acc.transports u = some tr0 → carriesCameraVideo tr0 = true) →
        ∀ tr0, mapGet (replaceVideoStep vt acc kv0).transports u = some tr0 →
          carriesCameraVideo tr0 = true := by
      intro u hu tr0 h0
      by_cases he : kv0.2.transportId = u
      · cases hm : mapGet acc.transports kv0.2.transportId with
        | none =>
          have hid : replaceVideoStep vt acc kv0 = acc := by simp [replaceVideoStep, hm]
          rw [hid] at h0
          exact hu tr0 h0
        | some tr =>
          have hupd : (replaceVideoStep vt acc kv0).transports =
              mapSet acc.transports kv0.2.transportId
                { tr with senders := replaceFirstVideoSender tr.senders vt } := by
            simp [replaceVideoStep, hm]
          rw [← he, hupd, mapGet_mapSet_self] at h0
          cases h0
          have hcamtr := hu tr (he ▸ hm)
          simp only [carriesCameraVideo] at hcamtr ⊢
          exact replaceFirst_keeps_camera _ _ hvt hcamtr
      · have hsame : mapGet (replaceVideoStep vt acc kv0).transports u =
            mapGet acc.transports u := by
          cases hm : mapGet acc.transports kv0.2.transportId with
          | none => simp [replaceVideoStep, hm]
          | some tr =>
            simp only [replaceVideoStep, hm]
            exact mapGet_mapSet_ne _ _ _ _ (fun hh => he hh.symm)
        rw [hsame] at h0
        exact hu tr0 h0
    refine ih (replaceVideoStep vt acc kv0) ?_ tid (hstep tid htid) tr2 hget
    intro kv hkv
    exact hstep kv.2.transportId (hA kv (List.mem_cons_of_mem _ hkv))

theorem videoTracksOf_append (xs ys : Stream) :
    videoTracksOf (xs ++ ys) = videoTracksOf xs ++ videoTracksOf ys := by
  simp [videoTracksOf, List.filter_append]

/-- C8: a screen share started (display capture succeeds with a video
track) and then ended by the display track's ended signal, with the
camera re-acquire succeeding with a camera-sourced video track, keeps the
Peer Session Table identical, keeps every transport (same keys, owners
and connection states: nothing is torn down or re-created), emits exactly
the two media-state broadcasts - the second one with
`isScreenSharing = false` - and in particular no offer or answer, and
leaves every peer transport carrying a camera video track again. -/
theorem screenShare_roundTrip_frame (s : ManagerState) (cam screen cam2 : Stream)
    (env : MediaEnv) (svt c0 : MediaTrack) (svrest crest : Stream)
    (hls : s.localStream = some cam)
    (hscr : videoTracksOf screen = svt :: svrest)
    (henv : env (primaryConstraints true (isAudioEnabled s)) = Except.ok cam2)
    (hc2 : videoTracksOf cam2 = c0 :: crest)
    (hcamsrc : ∀ t ∈ videoTracksOf cam2, t.source = TrackSource.camera) :
    (screenShareRoundTrip (Except.ok screen) env s).1.peers = s.peers ∧
    transportsSendersOnly s.transports
      (screenShareRoundTrip (Except.ok screen) env s).1.transports = true ∧
    (∃ a1 a2 v2, (screenShareRoundTrip (Except.ok screen) env s).2 =
      [Ev.mediaStateMsg s.participantId a1 true true,
       Ev.mediaStateMsg s.participantId a2 v2 false]) ∧
    (∀ src dst, Ev.offerMsg src dst ∉ (screenShareRoundTrip (Except.ok screen) env s).2 ∧
      Ev.answerMsg src dst ∉ (screenShareRoundTrip (Except.ok screen) env s).2) ∧
    (∀ p pr, mapGet s.peers p = some pr →
      ∀ tr2, mapGet (screenShareRoundTrip (Except.ok screen) env s).1.transports
          pr.transportId = some tr2 →
        carriesCameraVideo tr2 = true) := by
  have hc0mem : c0 ∈ videoTracksOf cam2 := hc2 ▸ List.mem_cons_self c0 crest
  have hc0kind : c0.kind = TrackKind.video := by
    have := List.mem_filter.mp hc0mem
    simpa using this.2
  have hc0src : c0.source = TrackSource.camera := hcamsrc c0 hc0mem
  have hc0cam2 : c0 ∈ cam2 := (List.mem_filter.mp hc0mem).1
  have hcamany : cam2.any
      (fun t => t.kind == TrackKind.video && t.source == TrackSource.camera) = true :=
    List.any_eq_true.mpr ⟨c0, hc0cam2, by simp [hc0kind, hc0src]⟩
  have hvt0 : senderCameraVideo ⟨some c0⟩ = true := by
    simp [senderCameraVideo, hc0kind, hc0src]
  -- step 1: the start of the screen share
  obtain ⟨ss, hstart⟩ : ∃ ss, startScreenShare (Except.ok screen) s =
      (replaceVideoOnAllPeers s svt,
       [Ev.mediaStateMsg (replaceVideoOnAllPeers s svt).participantId
          (isAudioEnabled (replaceVideoOnAllPeers s svt)) true true],
       Except.ok ss) := by
    cases haud : audioTracksOf cam with
    | nil =>
      exact ⟨screen, by simp [startScreenShare, hls, haud, hscr]⟩
    | cons a arest =>
      have hka : a.kind = TrackKind.audio := by
        have hmem : a ∈ audioTracksOf cam := haud ▸ List.mem_cons_self a arest
        have := List.mem_filter.mp hmem
        simpa using this.2
      have hvapp : videoTracksOf (screen ++ [a]) = svt :: svrest := by
        rw [videoTracksOf_append, hscr]
        have : videoTracksOf [a] = [] := by simp [videoTracksOf, hka]
        simp [this]
      exact ⟨screen ++ [a], by simp [startScreenShare, hls, haud, hvapp]⟩
  have hf1 := replaceVideoOnAllPeers_fields s svt
  have haud1 : isAudioEnabled (replaceVideoOnAllPeers s svt) = isAudioEnabled s :=
    isAudioEnabled_congr _ _ hf1.2.1
  -- step 2: re-acquiring the camera inside stopScreenShare
  have hinit : initializeMedia env (replaceVideoOnAllPeers s svt) true
      (isAudioEnabled (replaceVideoOnAllPeers s svt)) =
      ⟨updatePeerConnectionsWithStream
          { replaceVideoOnAllPeers s svt with localStream := some cam2 },
        [], [primaryConstraints true (isAudioEnabled (replaceVideoOnAllPeers s svt))],
        Except.ok cam2⟩ := by
    rw [haud1]
    simp [initializeMedia, henv]
  have hstop : stopScreenShare env (replaceVideoOnAllPeers s svt) =
      (replaceVideoOnAllPeers
          (updatePeerConnectionsWithStream
            { replaceVideoOnAllPeers s svt with localStream := some cam2 }) c0,
        [Ev.mediaStateMsg
          (replaceVideoOnAllPeers
            (updatePeerConnectionsWithStream
              { replaceVideoOnAllPeers s svt with localStream := some cam2 }) c0).participantId
          (isAudioEnabled (replaceVideoOnAllPeers
            (updatePeerConnectionsWithStream
              { replaceVideoOnAllPeers s svt with localStream := some cam2 }) c0))
          (isVideoEnabled (replaceVideoOnAllPeers
            (updatePeerConnectionsWithStream
              { replaceVideoOnAllPeers s svt with localStream := some cam2 }) c0))
          false]) := by
    simp [stopScreenShare, hinit, hc2]
  have hrt : screenShareRoundTrip (Except.ok screen) env s =
      (replaceVideoOnAllPeers
          (updatePeerConnectionsWithStream
            { replaceVideoOnAllPeers s svt with localStream := some cam2 }) c0,
        [Ev.mediaStateMsg (replaceVideoOnAllPeers s svt).participantId
            (isAudioEnabled (replaceVideoOnAllPeers s svt)) true true,
         Ev.mediaStateMsg
          (replaceVideoOnAllPeers
            (updatePeerConnectionsWithStream
              { replaceVideoOnAllPeers s svt with localStream := some cam2 }) c0).participantId
          (isAudioEnabled (replaceVideoOnAllPeers
            (updatePeerConnectionsWithStream
              { replaceVideoOnAllPeers s svt with localStream := some cam2 }) c0))
          (isVideoEnabled (replaceVideoOnAllPeers
            (updatePeerConnectionsWithStream
              { replaceVideoOnAllPeers s svt with localStream := some cam2 }) c0))
          false]) := by
    simp [screenShareRoundTrip, hstart, hstop]
  -- abbreviations for the two later states
  have hUfold : updatePeerConnectionsWithStream
      { replaceVideoOnAllPeers s svt with localStream := some cam2 } =
      ({ replaceVideoOnAllPeers s svt with localStream := some cam2 } :
        ManagerState).peers.foldl (updatePeerStep cam2)
        { replaceVideoOnAllPeers s svt with localStream := some cam2 } := by
    simp [updatePeerConnectionsWithStream]
  have hUfields := foldl_fields (updatePeerStep cam2) (updatePeerStep_fields cam2)
    ({ replaceVideoOnAllPeers s svt with localStream := some cam2 } :
      ManagerState).peers
    { replaceVideoOnAllPeers s svt with localStream := some cam2 }
  rw [← hUfold] at hUfields
  have hUpeers : (updatePeerConnectionsWithStream
      { replaceVideoOnAllPeers s svt with localStream := some cam2 }).peers = s.peers := by
    rw [hUfields.1]
    simpa using hf1.1
  have hUpid : (updatePeerConnectionsWithStream
      { replaceVideoOnAllPeers s svt with localStream := some cam2 }).participantId =
      s.participantId := by
    rw [hUfields.2.2]
    simpa using hf1.2.2
  have hf2 := replaceVideoOnAllPeers_fields
    (updatePeerConnectionsWithStream
      { replaceVideoOnAllPeers s svt with localStream := some cam2 }) c0
  refine ⟨?_, ?_, ?_, ?_, ?_⟩
  · rw [hrt]
    exact hf2.1.trans hUpeers
  · rw [hrt]
    have t1 : transportsSendersOnly s.transports
        (replaceVideoOnAllPeers s svt).transports = true := by
      simpa [replaceVideoOnAllPeers] using
        tso_foldl _ (tso_replaceVideoStep svt) s.peers s
    have t2 : transportsSendersOnly (replaceVideoOnAllPeers s svt).transports
        (updatePeerConnectionsWithStream
          { replaceVideoOnAllPeers s svt with localStream := some cam2 }).transports = true := by
      rw [hUfold]
      simpa using tso_foldl _ (tso_updatePeerStep cam2) _
        { replaceVideoOnAllPeers s svt with localStream := some cam2 }
    have t3 : transportsSendersOnly
        (updatePeerConnectionsWithStream
          { replaceVideoOnAllPeers s svt with localStream := some cam2 }).transports
        (replaceVideoOnAllPeers
          (updatePeerConnectionsWithStream
            { replaceVideoOnAllPeers s svt with localStream := some cam2 }) c0).transports := by
      simpa [replaceVideoOnAllPeers] using
        tso_foldl _ (tso_replaceVideoStep c0) _
          (updatePeerConnectionsWithStream
            { replaceVideoOnAllPeers s svt with localStream := some cam2 })
    exact tso_trans (tso_trans t1 t2) t3
  · refine ⟨isAudioEnabled (replaceVideoOnAllPeers s svt),
      isAudioEnabled (replaceVideoOnAllPeers
        (updatePeerConnectionsWithStream
          { replaceVideoOnAllPeers s svt with localStream := some cam2 }) c0),
      isVideoEnabled (replaceVideoOnAllPeers
        (updatePeerConnectionsWithStream
          { replaceVideoOnAllPeers s svt with localStream := some cam2 }) c0), ?_⟩
    rw [hrt]
    have hrpid : ∀ (X : ManagerState) (vt : MediaTrack),
        (replaceVideoOnAllPeers X vt).participantId = X.participantId :=
      fun X vt => (replaceVideoOnAllPeers_fields X vt).2.2
    have hupd : ∀ X : ManagerState,
        (updatePeerConnectionsWithStream X).participantId = X.participantId :=
      fun X => (updatePeerConnectionsWithStream_fields X).2.2
    simp [hrpid, hupd, hf1.2.2]
  · intro src dst
    rw [hrt]
    simp
  · intro p pr hp tr2 hget
    rw [hrt] at hget
    have hmem : (p, pr) ∈ s.peers := mapGet_mem hp
    have hA : ∀ kv ∈ (updatePeerConnectionsWithStream
          { replaceVideoOnAllPeers s svt with localStream := some cam2 }).peers,
        ∀ tr3, mapGet (updatePeerConnectionsWithStream
            { replaceVideoOnAllPeers s svt with localStream := some cam2 }).transports
          kv.2.transportId = some tr3 → carriesCameraVideo tr3 = true := by
      intro kv hkv tr3 hget3
      rw [hUfold] at hget3
      refine updStep_establishes cam2 hcamany _ _ kv.2.transportId
        (Or.inr ⟨kv, ?_, rfl⟩) tr3 hget3
      rw [hUpeers] at hkv
      simpa [hf1.1] using hkv
    have htidU : ∀ tr0, mapGet (updatePeerConnectionsWithStream
          { replaceVideoOnAllPeers s svt with localStream := some cam2 }).transports
        pr.transportId = some tr0 → carriesCameraVideo tr0 = true := by
      intro tr0 hget0
      rw [hUfold] at hget0
      refine updStep_establishes cam2 hcamany _ _ pr.transportId
        (Or.inr ⟨(p, pr), ?_, rfl⟩) tr0 hget0
      simpa [hf1.1] using hmem
    have hget2 : mapGet
        ((updatePeerConnectionsWithStream
            { replaceVideoOnAllPeers s svt with localStream := some cam2 }).peers.foldl
          (replaceVideoStep c0)
          (updatePeerConnectionsWithStream
            { replaceVideoOnAllPeers s svt with localStream := some cam2 })).transports
        pr.transportId = some tr2 := by
      simpa [replaceVideoOnAllPeers] using hget
    exact replaceStep_preserves c0 hvt0 _ _ hA pr.transportId htidU tr2 hget2

/-- Witness for C8: one connected peer, a camera+microphone local
stream, display capture yielding a screen video track, and re-acquire
returning the camera stream. -/
theorem screenShare_roundTrip_frame_witness :
    let camW : Stream := [⟨TrackKind.video, TrackSource.camera, true, false⟩,
                          ⟨TrackKind.audio, TrackSource.mic, true, false⟩]
    let screenW : Stream := [⟨TrackKind.video, TrackSource.screen, true, false⟩]
    let envW : MediaEnv := fun _ => Except.ok camW
    let sW : ManagerState :=
      { mkManager "m" "a" "Alice" with
          localStream := some camW
          peers := [("b", ⟨"b", 0, "Bob", true, true, false⟩)]
          transports := [(0, ⟨"b", ConnState.connected,
            [⟨some ⟨TrackKind.video, TrackSource.camera, true, false⟩⟩,
             ⟨some ⟨TrackKind.audio, TrackSource.mic, true, false⟩⟩]⟩)]
          nextTransportId := 1 }
    (screenShareRoundTrip (Except.ok screenW) envW sW).1.peers = sW.peers ∧
    transportsSendersOnly sW.transports
      (screenShareRoundTrip (Except.ok screenW) envW sW).1.transports = true ∧
    (screenShareRoundTrip (Except.ok screenW) envW sW).2 =
      [Ev.mediaStateMsg "a" true true true,
       Ev.mediaStateMsg "a" true true false] ∧
    Ev.offerMsg "a" "b" ∉ (screenShareRoundTrip (Except.ok screenW) envW sW).2 ∧
    mapGet (screenShareRoundTrip (Except.ok screenW) envW sW).1.transports 0 =
      some ⟨"b", ConnState.connected,
        [⟨none⟩, ⟨none⟩,
         ⟨some ⟨TrackKind.video, TrackSource.camera, true, false⟩⟩,
         ⟨some ⟨TrackKind.audio, TrackSource.mic, true, false⟩⟩]⟩ ∧
    carriesCameraVideo
      ⟨"b", ConnState.connected,
        [⟨none⟩, ⟨none⟩,
         ⟨some ⟨TrackKind.video, TrackSource.camera, true, false⟩⟩,
         ⟨some ⟨TrackKind.audio, TrackSource.mic, true, false⟩⟩]⟩ = true := by
  intro camW screenW envW sW
  have h := screenShare_roundTrip_frame sW camW screenW camW envW
    ⟨TrackKind.video, TrackSource.screen, true, false⟩
    ⟨TrackKind.video, TrackSource.camera, true, false⟩
    [] [] rfl rfl rfl rfl (by decide)
  refine ⟨h.1, h.2.1, by decide, by decide, ?_, ?_⟩
  · decide
  · exact h.2.2.2.2 "b" ⟨"b", 0, "Bob", true, true, false⟩ rfl
      ⟨"b", ConnState.connected,
        [⟨none⟩, ⟨none⟩,
         ⟨some ⟨TrackKind.video, TrackSource.camera, true, false⟩⟩,
         ⟨some ⟨TrackKind.audio, TrackSource.mic, true, false⟩⟩]⟩ (by decide)

end WebRTC
